import Mathlib

/-
  Verification development for the UniThrift campus-marketplace backend
  (`server/index.js`). The JavaScript business logic is shallowly embedded:
  JS strings become lists of characters, JS numbers become rationals,
  request handlers become pure functions from an explicit database state
  and request payload to a response value, and persistence is modelled by
  returning the records a handler would write.
-/

set_option allowUnsafeReducibility true

attribute [local semireducible] Rat.add Rat.sub Rat.mul Rat.div Rat.inv

namespace UniThrift

/-- JS strings, embedded as lists of characters. -/
abbrev Str := List Char

/-- Coerce a Lean string literal to the embedded string type. -/
def str (s : String) : Str := s.data

/-- Whitespace character test used by JS `String.prototype.trim`
(ASCII whitespace: space, tab, line feed, vertical tab, form feed,
carriage return). -/
def wsChar (c : Char) : Bool :=
  c.toNat = 32 || c.toNat = 9 || c.toNat = 10 || c.toNat = 11 ||
  c.toNat = 12 || c.toNat = 13

/-- One character of JS `String.prototype.toUpperCase` (ASCII range). -/
def upChar (c : Char) : Char :=
  if 97 ≤ c.toNat ∧ c.toNat ≤ 122 then Char.ofNat (c.toNat - 32) else c

/-- One character of JS `String.prototype.toLowerCase` (ASCII range). -/
def lowChar (c : Char) : Char :=
  if 65 ≤ c.toNat ∧ c.toNat ≤ 90 then Char.ofNat (c.toNat + 32) else c

/-- Left part of JS `trim`: drop leading whitespace. -/
def jsTrimLeft (s : Str) : Str := s.dropWhile wsChar

/-- Right part of JS `trim`: drop trailing whitespace. -/
def jsTrimRight (s : Str) : Str := (s.reverse.dropWhile wsChar).reverse

/-- JS `String.prototype.trim`. -/
def jsTrim (s : Str) : Str := jsTrimRight (jsTrimLeft s)

/-- JS `String.prototype.toUpperCase` (ASCII range). -/
def jsToUpper (s : Str) : Str := s.map upChar

/-- JS `String.prototype.toLowerCase` (ASCII range). -/
def jsToLower (s : Str) : Str := s.map lowChar

/-- JS truthiness of an optional string (`undefined`/`null`/`""` are falsy):
`strOr v` is `none` exactly when `v || <default>` would fall through to the
default. -/
def strOr (v : Option Str) : Option Str :=
  match v with
  | none => none
  | some s => if s = [] then none else some s

/-- `sanitizeString` from `server/index.js`: empty string on falsy input,
otherwise trim and truncate to `maxLen` characters. -/
def sanitizeString (value : Option Str) (maxLen : ℕ) : Str :=
  match strOr value with
  | none => []
  | some s => (jsTrim s).take maxLen

/-- JS `Math.round`: the floor of `q + 1/2` (halves round toward +∞). -/
def jsRound (q : ℚ) : ℤ := Rat.floor (q + 1/2)

/-- Coupon kinds in the `COUPONS` table. -/
inductive CouponType
  | percent
  | flat
deriving DecidableEq

/-- One entry of the `COUPONS` table. -/
structure CouponInfo where
  ctype : CouponType
  value : ℚ
  minTotal : ℚ
deriving DecidableEq

/-- The hard-coded `COUPONS` table from `server/index.js`, as a lookup
function on normalized codes. -/
def COUPONS (code : Str) : Option CouponInfo :=
  if code = str "UNISTUDENT10" then some ⟨CouponType.percent, 10, 0⟩
  else if code = str "FREESHIP20" then some ⟨CouponType.flat, 20, 150⟩
  else none

/-- Result record of `applyCoupon`. -/
structure CouponResult where
  finalTotal : ℤ
  discount : ℤ
  code : Option Str
deriving DecidableEq

/-- Code normalization done at the top of `applyCoupon`:
`(rawCode || "").toString().trim().toUpperCase()`. -/
def normCode (rawCode : Str) : Str := jsToUpper (jsTrim rawCode)

/-- `applyCoupon` from `server/index.js`. -/
def applyCoupon (total : ℚ) (rawCode : Str) : CouponResult :=
  let code := normCode rawCode
  match COUPONS code with
  | none => { finalTotal := jsRound total, discount := 0, code := none }
  | some info =>
    if total ≤ 0 then { finalTotal := jsRound total, discount := 0, code := none }
    else if total < info.minTotal then
      { finalTotal := jsRound total, discount := 0, code := none }
    else
      let discount0 : ℚ :=
        match info.ctype with
        | CouponType.percent => total * info.value / 100
        | CouponType.flat => info.value
      let discount : ℤ := max 0 (jsRound discount0)
      { finalTotal := max 0 (jsRound (total - (discount : ℚ)))
        discount := discount
        code := some code }

/-- A row of the Product table (the fields checkout and product deletion
read: primary key, price, owning seller). -/
structure Product where
  id : Str
  price : ℚ
  sellerId : Option Str
deriving DecidableEq

/-- One raw cart entry as received from the client. A field is `none` when
the JS value is absent (`undefined`/`null`); for `qty` and `price`, `none`
also stands for any value whose `Number(...)` image is not finite, since
the handler only distinguishes finite numbers from everything else. -/
structure RawItem where
  productId : Option Str
  id : Option Str
  name : Option Str
  qty : Option ℚ
  price : Option ℚ
deriving DecidableEq

/-- A normalized cart entry (`norm` array element in POST /api/cart/checkout). -/
structure NormItem where
  productId : Str
  name : Str
  qty : ℚ
  priceSnap : ℚ
deriving DecidableEq

/-- Normalization of one cart entry in POST /api/cart/checkout:
`productId: (i.productId || i.id || "CLIENT-ID").toString()`,
`name: (i.name || "Item").toString()`,
`qty: Number.isFinite(Number(i.qty)) ? Number(i.qty) : 1`,
`priceSnap: Number.isFinite(Number(i.price)) ? Number(i.price) : 0`. -/
def normItem (i : RawItem) : NormItem :=
  { productId := (strOr i.productId).getD ((strOr i.id).getD (str "CLIENT-ID"))
    name := (strOr i.name).getD (str "Item")
    qty := i.qty.getD 1
    priceSnap := i.price.getD 0 }

/-- The checkout request body. `bodyArr` is `some l` when the body itself is
a JSON array (in which case the named fields are absent); `items` and `cart`
are the two accepted object fields. A list element `none` is a JSON `null`
entry. -/
structure CheckoutBody where
  campus : Option Str
  pickup : Option Str
  couponCode : Option Str
  phone : Option Str
  bodyArr : Option (List (Option RawItem))
  items : Option (List (Option RawItem))
  cart : Option (List (Option RawItem))
deriving DecidableEq

/-- Item-list extraction in POST /api/cart/checkout: the body itself if it is
an array, else `body.items`, else `body.cart`, else `[]`. -/
def extractItems (b : CheckoutBody) : List (Option RawItem) :=
  match b.bodyArr with
  | some l => l
  | none =>
    match b.items with
    | some l => l
    | none =>
      match b.cart with
      | some l => l
      | none => []

/-- The `norm` array of POST /api/cart/checkout: drop falsy entries
(`.filter((i) => i)`), then normalize each entry. -/
def normOf (b : CheckoutBody) : List NormItem :=
  ((extractItems b).filterMap id).map normItem

/-- The `priceMap` lookup of POST /api/cart/checkout: price of the stored
product with the given id, if any. -/
def priceMap (db : List Product) (pid : Str) : Option ℚ :=
  (db.find? (fun p => p.id == pid)).map Product.price

/-- The `baseTotal` reduce of POST /api/cart/checkout. The DB price is
preferred when the product was found (DB prices are finite numbers), else
the client snapshot; a non-positive quantity contributes as quantity 1. -/
def baseTotal (db : List Product) (norm : List NormItem) : ℚ :=
  norm.foldl (fun sum i =>
    let unit : ℚ := (priceMap db i.productId).getD i.priceSnap
    let qty : ℚ := if i.qty > 0 then i.qty else 1
    sum + unit * qty) 0

/-- One persisted OrderItem row (`items.create` in `prisma.order.create`). -/
structure OrderItemRec where
  productId : Str
  qty : ℚ
  price : ℚ
deriving DecidableEq

/-- The persisted Order row together with its OrderItems. -/
structure OrderRec where
  campus : Str
  pickup : Str
  total : ℤ
  couponCode : Option Str
  discount : ℤ
  buyerPhone : Str
  items : List OrderItemRec
deriving DecidableEq

/-- Outcome of POST /api/cart/checkout: 400 when the sanitized phone is
empty, 422 when the normalized item list is empty, else the created order.
The error outcomes carry no order: nothing is persisted on those paths. -/
inductive CkResult
  | phoneMissing
  | noItems
  | ok (o : OrderRec)
deriving DecidableEq

/-- Sanitized campus: `sanitizeString(req.body?.campus || "ADMU", 40)`. -/
def campusOf (b : CheckoutBody) : Str :=
  sanitizeString (some ((strOr b.campus).getD (str "ADMU"))) 40

/-- Sanitized pickup: `sanitizeString(req.body?.pickup || "Gate 2.5", 80)`. -/
def pickupOf (b : CheckoutBody) : Str :=
  sanitizeString (some ((strOr b.pickup).getD (str "Gate 2.5"))) 80

/-- Sanitized raw coupon code: `sanitizeString(req.body?.couponCode || "", 32)`. -/
def couponOf (b : CheckoutBody) : Str :=
  sanitizeString (some ((strOr b.couponCode).getD [])) 32

/-- Sanitized buyer phone: `sanitizeString(phoneRaw || "", 32)`. -/
def phoneOf (b : CheckoutBody) : Str :=
  sanitizeString (some ((strOr b.phone).getD [])) 32

/-- POST /api/cart/checkout from `server/index.js`, with the product table
passed explicitly and persistence modelled by the returned order record. -/
def checkout (db : List Product) (b : CheckoutBody) : CkResult :=
  if phoneOf b = [] then CkResult.phoneMissing
  else
    let norm := normOf b
    if norm = [] then CkResult.noItems
    else
      let r := applyCoupon (baseTotal db norm) (couponOf b)
      CkResult.ok
        { campus := campusOf b
          pickup := pickupOf b
          total := r.finalTotal
          couponCode := r.code
          discount := r.discount
          buyerPhone := phoneOf b
          items := norm.map (fun it =>
            { productId := it.productId
              qty := it.qty
              price := (priceMap db it.productId).getD it.priceSnap }) }

/-- Sum of `price × qty` over a list of persisted OrderItems (the quantity
actually stored on each row). -/
def itemsTotal (its : List OrderItemRec) : ℚ :=
  its.foldl (fun s it => s + it.price * it.qty) 0

/-- A row of the User table. -/
structure User where
  id : Str
  email : Str
  name : Str
  passwordHash : Str
deriving DecidableEq

/-- The payload `jwt.sign` embeds in a session token (`signToken`). -/
structure TokenPayload where
  id : Str
  email : Str
  name : Str
deriving DecidableEq

/-- The public user fields returned by the auth endpoints. -/
structure PubUser where
  id : Str
  email : Str
  name : Str
deriving DecidableEq

/-- `signToken` from `server/index.js`, with the signing treated as an
external capability: the observable content is the embedded payload. -/
def signToken (u : User) : TokenPayload := ⟨u.id, u.email, u.name⟩

/-- Sanitized, lower-cased email used by signup and login:
`sanitizeString(email, 120).toLowerCase()`. -/
def cleanEmailOf (email : Option Str) : Str :=
  jsToLower (sanitizeString email 120)

/-- Outcome of POST /api/auth/login. -/
inductive LoginResult
  | badRequest (msg : Str)
  | unauthorized (msg : Str)
  | success (token : TokenPayload) (user : PubUser)
deriving DecidableEq

/-- POST /api/auth/login from `server/index.js`. The bcrypt comparison is
an external capability, passed as the oracle `bcompare` taking the
plaintext password and the stored hash. -/
def login (db : List User) (bcompare : Str → Str → Bool)
    (email password : Option Str) : LoginResult :=
  let cleanEmail := cleanEmailOf email
  if cleanEmail = [] ∨ strOr password = none then
    LoginResult.badRequest (str "email and password are required")
  else
    match db.find? (fun u => u.email == cleanEmail) with
    | none => LoginResult.unauthorized (str "Invalid credentials")
    | some u =>
      if bcompare (password.getD []) u.passwordHash then
        LoginResult.success (signToken u) ⟨u.id, u.email, u.name⟩
      else LoginResult.unauthorized (str "Invalid credentials")

/-- Outcome of POST /api/auth/signup. -/
inductive SignupResult
  | badRequest (msg : Str)
  | conflict (msg : Str)
  | created (token : TokenPayload) (user : PubUser)
deriving DecidableEq

/-- POST /api/auth/signup from `server/index.js`: returns the response
together with the resulting User table (`prisma.user.create` appends a
row). `hashFn` is the external bcrypt hash; `newId` the id the store would
assign. -/
def signup (db : List User) (hashFn : Str → Str) (newId : Str)
    (email password name : Option Str) : SignupResult × List User :=
  let cleanEmail := cleanEmailOf email
  let cleanName := sanitizeString name 80
  if cleanEmail = [] ∨ strOr password = none ∨ cleanName = [] then
    (SignupResult.badRequest (str "name, email, and password are required"), db)
  else
    match db.find? (fun u => u.email == cleanEmail) with
    | some _ => (SignupResult.conflict (str "Email already registered"), db)
    | none =>
      let u : User := ⟨newId, cleanEmail, cleanName, hashFn (password.getD [])⟩
      (SignupResult.created (signToken u) ⟨u.id, u.email, u.name⟩, db ++ [u])

/-- One `(label, ip)` bucket of the in-memory rate limiter. -/
structure Bucket where
  count : ℕ
  start : ℤ
deriving DecidableEq

/-- Decision of the rate-limiting middleware for one request: pass the
request on, or answer 429 "Too many requests". -/
inductive RLDecision
  | allow
  | tooMany
deriving DecidableEq

/-- One step of the `rateLimit(windowMs, maxRequests, label)` middleware for
a single key, at time `now` (ms): missing bucket is created with count 1;
an elapsed window resets the bucket; otherwise the count is incremented and
the request is rejected once the count exceeds the maximum. -/
def rlStep (windowMs : ℕ) (maxRequests : ℕ) (b : Option Bucket) (now : ℤ) :
    RLDecision × Bucket :=
  match b with
  | none => (RLDecision.allow, ⟨1, now⟩)
  | some bucket =>
    if now - bucket.start > (windowMs : ℤ) then (RLDecision.allow, ⟨1, now⟩)
    else
      let c := bucket.count + 1
      if c > maxRequests then (RLDecision.tooMany, ⟨c, bucket.start⟩)
      else (RLDecision.allow, ⟨c, bucket.start⟩)

/-- Run the rate limiter over a sequence of request times, starting from the
given bucket state, returning the per-request decisions. -/
def rlRunFrom (windowMs maxRequests : ℕ) (b : Option Bucket) :
    List ℤ → List RLDecision
  | [] => []
  | t :: ts =>
    let s := rlStep windowMs maxRequests b t
    s.1 :: rlRunFrom windowMs maxRequests (some s.2) ts

/-- Run the rate limiter over a sequence of request times for a key with no
existing bucket. -/
def rlRun (windowMs maxRequests : ℕ) (times : List ℤ) : List RLDecision :=
  rlRunFrom windowMs maxRequests none times

/-- The checkout limiter configuration: `rateLimit(60_000, 10, "checkout")`. -/
def checkoutWindowMs : ℕ := 60000

/-- Maximum checkout requests per window per IP. -/
def checkoutMaxRequests : ℕ := 10

/-- Outcome of DELETE /api/my/products/:id — 403 "Not allowed" or success. -/
inductive DelResult
  | notAllowed
  | deleted
deriving DecidableEq

/-- DELETE /api/my/products/:id from `server/index.js`: returns the response
and the resulting Product table. The row is removed only when it exists and
its sellerId equals the authenticated user's id; every other case answers
403 and leaves the table unchanged. -/
def deleteProduct (db : List Product) (userId : Str) (pid : Str) :
    DelResult × List Product :=
  match db.find? (fun p => p.id == pid) with
  | none => (DelResult.notAllowed, db)
  | some product =>
    if product.sellerId == some userId then
      (DelResult.deleted, db.filter (fun q => !(q.id == pid)))
    else (DelResult.notAllowed, db)

/-- An Order row as read by GET /api/admin/summary. `campus` and
`couponCode` are the nullable columns the aggregation guards with
truthiness checks; `createdAt` is the creation instant in ms since the
Unix epoch (UTC). -/
structure AOrder where
  total : ℤ
  discount : ℤ
  campus : Option Str
  couponCode : Option Str
  createdAt : ℕ
deriving DecidableEq

/-- One entry of the `byCampusMap` grouping. -/
structure CampusGroup where
  campus : Str
  sales : ℤ
  orders : ℕ
deriving DecidableEq

/-- One entry of the `couponMap` grouping. -/
structure CouponGroup where
  code : Str
  uses : ℕ
  totalDiscount : ℤ
deriving DecidableEq

/-- One entry of the `dailyMap` grouping. `date` is the UTC calendar day
(days since the epoch), the numeric image of the `YYYY-MM-DD` key
`o.createdAt.toISOString().slice(0, 10)`; for representable instants the
lexicographic order of those keys is exactly the numeric order of days. -/
structure DayGroup where
  date : ℕ
  sales : ℤ
  orders : ℕ
deriving DecidableEq

/-- Campus key of an order: `o.campus || "Unknown"`. -/
def campusKey (o : AOrder) : Str := (strOr o.campus).getD (str "Unknown")

/-- UTC calendar day of an order's creation instant. -/
def dayKey (o : AOrder) : ℕ := o.createdAt / 86400000

/-- Update of `byCampusMap[campus]` for one order: add its total to the
group's sales and bump its order count, inserting a fresh group at the end
when the key is new (JS object insertion order). -/
def upsertCampus (m : List CampusGroup) (c : Str) (t : ℤ) : List CampusGroup :=
  match m with
  | [] => [⟨c, t, 1⟩]
  | g :: rest =>
    if g.campus = c then ⟨g.campus, g.sales + t, g.orders + 1⟩ :: rest
    else g :: upsertCampus rest c t

/-- Update of `couponMap[code]` for one couponed order. -/
def upsertCoupon (m : List CouponGroup) (c : Str) (d : ℤ) : List CouponGroup :=
  match m with
  | [] => [⟨c, 1, d⟩]
  | g :: rest =>
    if g.code = c then ⟨g.code, g.uses + 1, g.totalDiscount + d⟩ :: rest
    else g :: upsertCoupon rest c d

/-- Update of `dailyMap[key]` for one order. -/
def upsertDay (m : List DayGroup) (k : ℕ) (t : ℤ) : List DayGroup :=
  match m with
  | [] => [⟨k, t, 1⟩]
  | g :: rest =>
    if g.date = k then ⟨g.date, g.sales + t, g.orders + 1⟩ :: rest
    else g :: upsertDay rest k t

/-- `totalSales` of GET /api/admin/summary: `reduce((sum, o) => sum + (o.total || 0), 0)`. -/
def totalSales (orders : List AOrder) : ℤ :=
  orders.foldl (fun s o => s + o.total) 0

/-- `totalDiscount` of GET /api/admin/summary. -/
def totalDiscount (orders : List AOrder) : ℤ :=
  orders.foldl (fun s o => s + o.discount) 0

/-- `avgOrder` of GET /api/admin/summary:
`totalOrders > 0 ? Math.round(totalSales / totalOrders) : 0`. -/
def avgOrder (orders : List AOrder) : ℤ :=
  if orders.length > 0 then
    jsRound ((totalSales orders : ℚ) / (orders.length : ℚ))
  else 0

/-- `byCampus` of GET /api/admin/summary. -/
def byCampus (orders : List AOrder) : List CampusGroup :=
  orders.foldl (fun m o => upsertCampus m (campusKey o) o.total) []

/-- `byCoupon` of GET /api/admin/summary: orders with a falsy couponCode
(`if (!o.couponCode) return`) are skipped. -/
def byCoupon (orders : List AOrder) : List CouponGroup :=
  orders.foldl (fun m o =>
    match strOr o.couponCode with
    | none => m
    | some c => upsertCoupon m c o.discount) []

/-- Ordering of daily entries by date, as the `localeCompare` sort on
`YYYY-MM-DD` keys. -/
def dayLE (a b : DayGroup) : Prop := a.date ≤ b.date

instance : DecidableRel dayLE := fun a b => Nat.decLe a.date b.date

instance : IsTotal DayGroup dayLE := ⟨fun a b => Nat.le_total a.date b.date⟩

instance : IsTrans DayGroup dayLE := ⟨fun _ _ _ => Nat.le_trans⟩

/-- The unsorted `dailyMap` grouping of GET /api/admin/summary. -/
def dailyGroups (orders : List AOrder) : List DayGroup :=
  orders.foldl (fun m o => upsertDay m (dayKey o) o.total) []

/-- `daily` of GET /api/admin/summary: the day groups sorted ascending by
date key. -/
def daily (orders : List AOrder) : List DayGroup :=
  List.insertionSort dayLE (dailyGroups orders)

/-! ### Character and string normalization lemmas -/

theorem toNat_charOfNat {n : ℕ} (h : n < 55296) : (Char.ofNat n).toNat = n := by
  have hv : n.isValidChar := Or.inl h
  simp [Char.ofNat, hv, Char.ofNatAux, Char.toNat, UInt32.toNat]

theorem wsChar_upChar (c : Char) : wsChar (upChar c) = wsChar c := by
  by_cases h : 97 ≤ c.toNat ∧ c.toNat ≤ 122
  · have h1 : (Char.ofNat (c.toNat - 32)).toNat = c.toNat - 32 :=
      toNat_charOfNat (by omega)
    have hA : wsChar (upChar c) = false := by
      simp only [upChar, if_pos h, wsChar, h1]
      simp only [Bool.or_eq_false_iff, decide_eq_false_iff_not]
      omega
    have hB : wsChar c = false := by
      simp only [wsChar, Bool.or_eq_false_iff, decide_eq_false_iff_not]
      omega
    rw [hA, hB]
  · simp only [upChar, if_neg h]

theorem upChar_upChar (c : Char) : upChar (upChar c) = upChar c := by
  by_cases h : 97 ≤ c.toNat ∧ c.toNat ≤ 122
  · have h1 : (Char.ofNat (c.toNat - 32)).toNat = c.toNat - 32 :=
      toNat_charOfNat (by omega)
    simp only [upChar, if_pos h, h1]
    rw [if_neg (by omega)]
  · simp only [upChar, if_neg h]

theorem lowChar_lowChar (c : Char) : lowChar (lowChar c) = lowChar c := by
  by_cases h : 65 ≤ c.toNat ∧ c.toNat ≤ 90
  · have h1 : (Char.ofNat (c.toNat + 32)).toNat = c.toNat + 32 :=
      toNat_charOfNat (by omega)
    simp only [lowChar, if_pos h, h1]
    rw [if_neg (by omega)]
  · simp only [lowChar, if_neg h]

theorem dropWhile_self (p : Char → Bool) (l : Str) :
    List.dropWhile p (List.dropWhile p l) = List.dropWhile p l := by
  cases h : List.dropWhile p l with
  | nil => rfl
  | cons c t =>
    have hd := List.head?_dropWhile_not p l
    rw [h] at hd
    simp only [List.head?_cons] at hd
    simp [List.dropWhile_cons, hd]

theorem jsTrimLeft_jsToUpper (s : Str) :
    jsTrimLeft (jsToUpper s) = jsToUpper (jsTrimLeft s) := by
  have hfun : wsChar ∘ upChar = wsChar := funext wsChar_upChar
  simp only [jsTrimLeft, jsToUpper, List.dropWhile_map, hfun]

theorem jsTrimRight_jsToUpper (s : Str) :
    jsTrimRight (jsToUpper s) = jsToUpper (jsTrimRight s) := by
  have hfun : wsChar ∘ upChar = wsChar := funext wsChar_upChar
  simp only [jsTrimRight, jsToUpper, ← List.map_reverse, List.dropWhile_map, hfun]

theorem jsTrim_jsToUpper (s : Str) :
    jsTrim (jsToUpper s) = jsToUpper (jsTrim s) := by
  rw [jsTrim, jsTrimLeft_jsToUpper, jsTrimRight_jsToUpper, jsTrim]

theorem jsToUpper_jsToUpper (s : Str) :
    jsToUpper (jsToUpper s) = jsToUpper s := by
  simp only [jsToUpper, List.map_map]
  exact List.map_congr_left (fun c _ => upChar_upChar c)

theorem jsToLower_jsToLower (s : Str) :
    jsToLower (jsToLower s) = jsToLower s := by
  simp only [jsToLower, List.map_map]
  exact List.map_congr_left (fun c _ => lowChar_lowChar c)

theorem jsTrimLeft_self (s : Str) :
    jsTrimLeft (jsTrimLeft s) = jsTrimLeft s :=
  dropWhile_self wsChar s

theorem jsTrimRight_self (s : Str) :
    jsTrimRight (jsTrimRight s) = jsTrimRight s := by
  simp only [jsTrimRight, List.reverse_reverse]
  rw [dropWhile_self]

theorem jsTrimLeft_jsTrimRight (s : Str) (h : jsTrimLeft s = s) :
    jsTrimLeft (jsTrimRight s) = jsTrimRight s := by
  obtain ⟨w, hw⟩ := List.dropWhile_suffix (l := s.reverse) wsChar
  have hs : (List.dropWhile wsChar s.reverse).reverse ++ w.reverse = s := by
    have := congrArg List.reverse hw
    rwa [List.reverse_append, List.reverse_reverse] at this
  cases hv : (List.dropWhile wsChar s.reverse).reverse with
  | nil => simp [jsTrimRight, jsTrimLeft, hv]
  | cons c t =>
    have hsct : s = c :: (t ++ w.reverse) := by
      rw [← hs, hv]; simp
    have hc : wsChar c = false := by
      by_contra hcc
      have hcc' : wsChar c = true := by
        cases hwc : wsChar c with
        | false => exact absurd hwc hcc
        | true => rfl
      have h' := h
      rw [jsTrimLeft] at h'
      rw [hsct, List.dropWhile_cons, hcc'] at h'
      simp only [if_true] at h'
      have hlen : (List.dropWhile wsChar (t ++ w.reverse)).length ≤
          (t ++ w.reverse).length :=
        (List.dropWhile_suffix wsChar).length_le
      rw [h'] at hlen
      simp only [List.length_cons] at hlen
      omega
    have htr : jsTrimRight s = c :: t := by
      rw [jsTrimRight, hv]
    rw [htr, jsTrimLeft, List.dropWhile_cons, hc]
    simp

theorem jsTrim_self (s : Str) : jsTrim (jsTrim s) = jsTrim s := by
  rw [jsTrim, jsTrim]
  rw [jsTrimLeft_jsTrimRight _ (jsTrimLeft_self s), jsTrimRight_self]

theorem normCode_norm (c : Str) : normCode (jsTrim (jsToUpper c)) = normCode c := by
  rw [normCode, normCode, jsTrim_self, jsTrim_jsToUpper, jsToUpper_jsToUpper]

/-- The discount `applyCoupon` computes for an applicable coupon:
percentage of the subtotal or flat value, rounded and clamped non-negative. -/
def couponDiscount (total : ℚ) (info : CouponInfo) : ℤ :=
  max 0 (jsRound (match info.ctype with
    | CouponType.percent => total * info.value / 100
    | CouponType.flat => info.value))

end UniThrift

open UniThrift

/-- C2: for every numeric subtotal `t` and raw code `c`: if the normalized
code is unknown, or `t ≤ 0`, or `t` is below the coupon's `minTotal`, then
`applyCoupon` returns the rounded subtotal, zero discount, and null code;
otherwise it returns the clamped rounded discount (percentage or flat),
the final total `max 0 (round (t - discount))`, and the normalized code.
In particular `applyCoupon 1000 "UNISTUDENT10" = (900, 100, "UNISTUDENT10")`
and `applyCoupon 100 "FREESHIP20" = (100, 0, null)`. -/
theorem claim_C2 (t : ℚ) (c : Str) :
    (COUPONS (normCode c) = none →
        applyCoupon t c = { finalTotal := jsRound t, discount := 0, code := none }) ∧
    (t ≤ 0 →
        applyCoupon t c = { finalTotal := jsRound t, discount := 0, code := none }) ∧
    (∀ info, COUPONS (normCode c) = some info → t < info.minTotal →
        applyCoupon t c = { finalTotal := jsRound t, discount := 0, code := none }) ∧
    (∀ info, COUPONS (normCode c) = some info → 0 < t → info.minTotal ≤ t →
        applyCoupon t c =
          { finalTotal := max 0 (jsRound (t - (couponDiscount t info : ℚ)))
            discount := couponDiscount t info
            code := some (normCode c) }) ∧
    applyCoupon 1000 (str "UNISTUDENT10") =
      { finalTotal := 900, discount := 100, code := some (str "UNISTUDENT10") } ∧
    applyCoupon 100 (str "FREESHIP20") =
      { finalTotal := 100, discount := 0, code := none } := by
  refine ⟨?_, ?_, ?_, ?_, by decide, by decide⟩
  · intro h
    simp [applyCoupon, h]
  · intro h
    cases hC : COUPONS (normCode c) with
    | none => simp [applyCoupon, hC]
    | some info => simp [applyCoupon, hC, h]
  · intro info hC hlt
    by_cases ht : t ≤ 0
    · simp [applyCoupon, hC, ht]
    · simp [applyCoupon, hC, ht, hlt]
  · intro info hC ht hmin
    have ht' : ¬t ≤ 0 := not_le.mpr ht
    have hmin' : ¬t < info.minTotal := not_lt.mpr hmin
    simp [applyCoupon, hC, ht', hmin', couponDiscount]

/-- Instantiation of `claim_C2` at an unknown code and a concrete subtotal. -/
theorem claim_C2_witness :
    COUPONS (normCode (str "NOPE")) = none ∧
    applyCoupon 5 (str "NOPE") =
      { finalTotal := jsRound 5, discount := 0, code := none } :=
  ⟨by decide, (claim_C2 5 (str "NOPE")).1 (by decide)⟩

/-- C4: `applyCoupon` is insensitive to case and surrounding whitespace in
its code argument: `applyCoupon t c = applyCoupon t (trim (uppercase c))`,
and a returned non-null code is always the trimmed upper-case normalization
of the raw code. In particular
`applyCoupon 200 "freeship20" = (180, 20, "FREESHIP20")`. -/
theorem claim_C4 (t : ℚ) (c : Str) :
    applyCoupon t c = applyCoupon t (jsTrim (jsToUpper c)) ∧
    (∀ s, (applyCoupon t c).code = some s → s = jsToUpper (jsTrim c)) ∧
    applyCoupon 200 (str "freeship20") =
      { finalTotal := 180, discount := 20, code := some (str "FREESHIP20") } := by
  refine ⟨?_, ?_, by decide⟩
  · simp only [applyCoupon, normCode_norm]
  · intro s hs
    simp only [applyCoupon] at hs
    split at hs
    · simp at hs
    · split at hs
      · simp at hs
      · split at hs
        · simp at hs
        · simp only [Option.some.injEq] at hs
          exact hs.symm

/-- Instantiation of `claim_C4` at a lower-case padded code. -/
theorem claim_C4_witness :
    applyCoupon 200 (str " freeSHIP20 ") =
      applyCoupon 200 (jsTrim (jsToUpper (str " freeSHIP20 "))) ∧
    str "FREESHIP20" = jsToUpper (jsTrim (str " freeSHIP20 ")) :=
  ⟨(claim_C4 200 (str " freeSHIP20 ")).1,
   (claim_C4 200 (str " freeSHIP20 ")).2.1 (str "FREESHIP20") (by decide)⟩

namespace UniThrift

/-- Two folds over the same list agree when their step functions agree on
the list's elements. -/
theorem foldl_congr_mem {α β : Type} (l : List α) (f g : β → α → β) (init : β)
    (h : ∀ b a, a ∈ l → f b a = g b a) : l.foldl f init = l.foldl g init := by
  induction l generalizing init with
  | nil => rfl
  | cons x xs ih =>
    rw [List.foldl_cons, List.foldl_cons, h init x (List.mem_cons_self x xs)]
    exact ih _ (fun b a ha => h b a (List.mem_cons_of_mem _ ha))

/-- For persisted items all of positive quantity, the sum of stored
`price × qty` equals the checkout subtotal. -/
theorem itemsTotal_eq_baseTotal (db : List Product) (l : List NormItem)
    (hq : ∀ it ∈ l, 0 < it.qty) :
    itemsTotal (l.map (fun it =>
      { productId := it.productId
        qty := it.qty
        price := (priceMap db it.productId).getD it.priceSnap })) = baseTotal db l := by
  rw [itemsTotal, baseTotal, List.foldl_map]
  exact foldl_congr_mem l _ _ 0 (fun s it hit => by
    simp only []
    rw [if_pos (hq it hit)])

/-- Checkout body of the `claim_C1` counterexample: a valid phone and a
single cart item with quantity 0 and client price 100, no coupon. -/
def c1Body : CheckoutBody :=
  { campus := none, pickup := none, couponCode := none
    phone := some (str "0917")
    bodyArr := none
    items := some [some { productId := some (str "P1"), id := none,
                          name := none, qty := some 0, price := some 100 }]
    cart := none }

/-- The order `checkout [] c1Body` persists. -/
def c1Order : OrderRec :=
  { campus := str "ADMU", pickup := str "Gate 2.5", total := 100
    couponCode := none, discount := 0, buyerPhone := str "0917"
    items := [{ productId := str "P1", qty := 0, price := 100 }] }

end UniThrift

/-- C1 fails as stated: a persisted order whose single item has stored
quantity 0 gets total 100 (the subtotal counts non-positive quantities as
1), while the coupon-adjusted sum of the persisted items' `price × qty` is
0, so the invariant does not cover items with `qty ≤ 0`. -/
theorem claim_C1_counterexample :
    checkout [] c1Body = CkResult.ok c1Order ∧
    (applyCoupon (itemsTotal c1Order.items) (couponOf c1Body)).finalTotal ≠
      c1Order.total := by decide

/-- C1 amended: for every checkout request that succeeds in persisting an
order all of whose items have positive quantity, the stored total equals
`applyCoupon` of the sum over the persisted items of `price × qty` with
the request's (sanitized) coupon code. (For an item with `qty ≤ 0` the
subtotal counts quantity 1 while the stored row keeps the non-positive
quantity, so the invariant is restricted to positive quantities.) -/
theorem claim_C1 (db : List Product) (b : CheckoutBody) (o : OrderRec)
    (h : checkout db b = CkResult.ok o)
    (hq : ∀ it ∈ o.items, 0 < it.qty) :
    (applyCoupon (itemsTotal o.items) (couponOf b)).finalTotal = o.total := by
  simp only [checkout] at h
  split at h
  · simp at h
  · split at h
    · simp at h
    · injection h with h2
      subst h2
      simp only []
      rw [itemsTotal_eq_baseTotal db (normOf b)
        (fun it hit => hq _ (List.mem_map_of_mem _ hit))]

namespace UniThrift

/-- Checkout body of the `claim_C1` witness: one item of quantity 2 and
client price 50, no matching product, no coupon. -/
def c1wBody : CheckoutBody :=
  { campus := none, pickup := none, couponCode := none
    phone := some (str "0917")
    bodyArr := none
    items := some [some { productId := some (str "P2"), id := none,
                          name := none, qty := some 2, price := some 50 }]
    cart := none }

/-- The order `checkout [] c1wBody` persists. -/
def c1wOrder : OrderRec :=
  { campus := str "ADMU", pickup := str "Gate 2.5", total := 100
    couponCode := none, discount := 0, buyerPhone := str "0917"
    items := [{ productId := str "P2", qty := 2, price := 50 }] }

end UniThrift

/-- Instantiation of `claim_C1` at a concrete positive-quantity checkout. -/
theorem claim_C1_witness :
    checkout [] c1wBody = CkResult.ok c1wOrder ∧
    (∀ it ∈ c1wOrder.items, 0 < it.qty) ∧
    (applyCoupon (itemsTotal c1wOrder.items) (couponOf c1wBody)).finalTotal =
      c1wOrder.total :=
  ⟨by decide, by decide, claim_C1 [] c1wBody c1wOrder (by decide) (by decide)⟩

namespace UniThrift

/-- The unit price checkout uses for a normalized item, written as the case
split of the claim: the stored product price when the id matches a product,
else the client snapshot. -/
theorem priceMap_getD (db : List Product) (pid : Str) (snap : ℚ) :
    (priceMap db pid).getD snap =
      (match db.find? (fun p => p.id == pid) with
       | some p => p.price
       | none => snap) := by
  rw [priceMap]
  cases db.find? (fun p => p.id == pid) <;> simp

end UniThrift

/-- C3: in a successful checkout, every persisted item whose productId
matches a stored product carries the stored price (the client snapshot does
not enter), and an item with an unknown productId carries the client
snapshot; the same case split determines each item's contribution to the
subtotal the order total is computed from; and the snapshot itself defaults
to 0 when the client price is absent or non-finite. -/
theorem claim_C3 (db : List Product) (b : CheckoutBody) (o : OrderRec)
    (h : checkout db b = CkResult.ok o) :
    o.items = (normOf b).map (fun it =>
      { productId := it.productId
        qty := it.qty
        price := match db.find? (fun p => p.id == it.productId) with
                 | some p => p.price
                 | none => it.priceSnap }) ∧
    o.total = (applyCoupon ((normOf b).foldl (fun sum it =>
        sum + (match db.find? (fun p => p.id == it.productId) with
               | some p => p.price
               | none => it.priceSnap) * (if it.qty > 0 then it.qty else 1)) 0)
      (couponOf b)).finalTotal ∧
    (∀ i : RawItem, (normItem i).priceSnap = i.price.getD 0) := by
  simp only [checkout] at h
  split at h
  · simp at h
  · split at h
    · simp at h
    · injection h with h2
      subst h2
      refine ⟨?_, ?_, fun i => rfl⟩
      · simp only []
        exact List.map_congr_left (fun it _ => by rw [priceMap_getD])
      · simp only [baseTotal]
        congr 2
        exact foldl_congr_mem _ _ _ 0 (fun s it _ => by rw [priceMap_getD])

namespace UniThrift

/-- Product table for the `claim_C3` witness: one stored product `P1`. -/
def c3db : List Product := [{ id := str "P1", price := 999, sellerId := none }]

/-- Checkout body for the `claim_C3` witness: an item matching `P1` with a
conflicting client price 5, and an unknown item `P9` with client price 7. -/
def c3Body : CheckoutBody :=
  { campus := none, pickup := none, couponCode := none
    phone := some (str "0917")
    bodyArr := none
    items := some
      [some { productId := some (str "P1"), id := none, name := none,
              qty := some 1, price := some 5 },
       some { productId := some (str "P9"), id := none, name := none,
              qty := some 1, price := some 7 }]
    cart := none }

/-- The order `checkout c3db c3Body` persists: the stored price 999 is used
for `P1` (client 5 ignored) and the snapshot 7 for the unknown `P9`. -/
def c3Order : OrderRec :=
  { campus := str "ADMU", pickup := str "Gate 2.5", total := 1006
    couponCode := none, discount := 0, buyerPhone := str "0917"
    items := [{ productId := str "P1", qty := 1, price := 999 },
              { productId := str "P9", qty := 1, price := 7 }] }

end UniThrift

/-- Instantiation of `claim_C3` at a mixed known/unknown-product checkout. -/
theorem claim_C3_witness :
    checkout c3db c3Body = CkResult.ok c3Order ∧
    c3Order.items = (normOf c3Body).map (fun it =>
      { productId := it.productId
        qty := it.qty
        price := match c3db.find? (fun p => p.id == it.productId) with
                 | some p => p.price
                 | none => it.priceSnap }) :=
  ⟨by decide, (claim_C3 c3db c3Body c3Order (by decide)).1⟩

namespace UniThrift

/-- Body of the `claim_C5` counterexample: an empty `items` list and no
phone field. -/
def c5Body : CheckoutBody :=
  { campus := none, pickup := none, couponCode := none, phone := none
    bodyArr := none, items := some [], cart := none }

/-- Body of the `claim_C5` witness: a phone and a `cart` list holding only
null entries. -/
def c5wBody : CheckoutBody :=
  { campus := none, pickup := none, couponCode := none
    phone := some (str "0917")
    bodyArr := none, items := none, cart := some [none, none] }

end UniThrift

/-- C5 fails as stated: the phone check runs before the empty-items check,
so a request with an empty normalized item list but a missing phone is
answered 400 (phone required), not 422 — the outcome is not independent of
the phone field. -/
theorem claim_C5_counterexample :
    normOf c5Body = [] ∧
    checkout [] c5Body = CkResult.phoneMissing ∧
    checkout [] c5Body ≠ CkResult.noItems := by decide

/-- C5 amended: for every checkout request whose sanitized phone is
non-empty and whose normalized item list is empty (empty `items`, bare
empty array, or only null entries), checkout returns the 422
unprocessable-entity outcome — which carries no order, so nothing is
persisted — regardless of campus, pickup and coupon code. -/
theorem claim_C5 (db : List Product) (b : CheckoutBody)
    (hp : phoneOf b ≠ []) (hn : normOf b = []) :
    checkout db b = CkResult.noItems := by
  simp [checkout, if_neg hp, hn]

/-- Instantiation of `claim_C5` at a cart of null entries. -/
theorem claim_C5_witness :
    phoneOf c5wBody ≠ [] ∧ normOf c5wBody = [] ∧
    checkout [] c5wBody = CkResult.noItems :=
  ⟨by decide, by decide, claim_C5 [] c5wBody (by decide) (by decide)⟩

/-- C6: login is non-enumerating. For any two well-formed login requests,
one whose email matches no user and one whose email matches a user but
whose bcrypt comparison fails, both runs return the identical
401 response `{error: "Invalid credentials"}` — the caller cannot tell the
two failures apart. -/
theorem claim_C6 (db1 db2 : List User) (bc1 bc2 : Str → Str → Bool)
    (e1 p1 e2 p2 : Option Str)
    (hw1 : cleanEmailOf e1 ≠ [] ∧ strOr p1 ≠ none)
    (hw2 : cleanEmailOf e2 ≠ [] ∧ strOr p2 ≠ none)
    (h1 : db1.find? (fun u => u.email == cleanEmailOf e1) = none)
    (u : User)
    (h2 : db2.find? (fun u => u.email == cleanEmailOf e2) = some u)
    (h2b : bc2 (p2.getD []) u.passwordHash = false) :
    login db1 bc1 e1 p1 = LoginResult.unauthorized (str "Invalid credentials") ∧
    login db2 bc2 e2 p2 = LoginResult.unauthorized (str "Invalid credentials") ∧
    login db1 bc1 e1 p1 = login db2 bc2 e2 p2 := by
  have hcond1 : ¬(cleanEmailOf e1 = [] ∨ strOr p1 = none) := by
    rintro (h | h)
    · exact hw1.1 h
    · exact hw1.2 h
  have hcond2 : ¬(cleanEmailOf e2 = [] ∨ strOr p2 = none) := by
    rintro (h | h)
    · exact hw2.1 h
    · exact hw2.2 h
  have ha : login db1 bc1 e1 p1 = LoginResult.unauthorized (str "Invalid credentials") := by
    simp only [login, if_neg hcond1, h1]
  have hb : login db2 bc2 e2 p2 = LoginResult.unauthorized (str "Invalid credentials") := by
    simp only [login, if_neg hcond2, h2, h2b]
    simp
  exact ⟨ha, hb, ha.trans hb.symm⟩

namespace UniThrift

/-- A bcrypt-comparison oracle that accepts everything. -/
def bcYes : Str → Str → Bool := fun _ _ => true

/-- A bcrypt-comparison oracle that rejects everything (wrong password). -/
def bcNo : Str → Str → Bool := fun _ _ => false

/-- Stored user for the `claim_C6` witness. -/
def c6User : User := ⟨str "u1", str "b@x.com", str "Bob", str "hash"⟩

end UniThrift

/-- Instantiation of `claim_C6`: unknown email versus wrong password. -/
theorem claim_C6_witness :
    login [] bcYes (some (str "a@x.com")) (some (str "pw")) =
      LoginResult.unauthorized (str "Invalid credentials") ∧
    login [c6User] bcNo (some (str "b@x.com")) (some (str "wrong")) =
      LoginResult.unauthorized (str "Invalid credentials") ∧
    login [] bcYes (some (str "a@x.com")) (some (str "pw")) =
      login [c6User] bcNo (some (str "b@x.com")) (some (str "wrong")) :=
  claim_C6 [] [c6User] bcYes bcNo
    (some (str "a@x.com")) (some (str "pw"))
    (some (str "b@x.com")) (some (str "wrong"))
    ⟨by decide, by decide⟩ ⟨by decide, by decide⟩
    (by decide) c6User (by decide) (by decide)

namespace UniThrift

/-- Whether a signup outcome is the 409 conflict response. -/
def isConflict (r : SignupResult) : Bool :=
  match r with
  | SignupResult.conflict _ => true
  | _ => false

/-- Stored user for the C8 scenarios. -/
def c8User : User := ⟨str "u1", str "bob@x.com", str "Bob", str "h1"⟩

/-- A stand-in bcrypt hash for concrete signup runs. -/
def hashId : Str → Str := fun s => s

end UniThrift

/-- C8 fails as stated: a signup request whose email matches an existing
user but whose password is missing is answered 400 (required fields), not
409 — the conflict response is not unconditional on this input. -/
theorem claim_C8_counterexample :
    cleanEmailOf (some (str "bob@x.com")) = c8User.email ∧
    (signup [c8User] hashId (str "u2") (some (str "bob@x.com")) none
        (some (str "Bob"))).1 =
      SignupResult.badRequest (str "name, email, and password are required") ∧
    isConflict (signup [c8User] hashId (str "u2") (some (str "bob@x.com")) none
        (some (str "Bob"))).1 = false := by decide

/-- C8 amended: for every signup request that passes the required-fields
check (non-empty sanitized email, name, and a truthy password) and whose
sanitized lower-cased email matches, case-insensitively, the email of an
existing user — stored emails being lower-case, as signup stores them —
signup returns the 409 conflict response and leaves the User table
unchanged. -/
theorem claim_C8 (db : List User) (hashFn : Str → Str) (newId : Str)
    (email password name : Option Str)
    (hreq : cleanEmailOf email ≠ [] ∧ strOr password ≠ none ∧
      sanitizeString name 80 ≠ [])
    (hlow : ∀ v ∈ db, v.email = jsToLower v.email)
    (u : User) (hu : u ∈ db)
    (hmatch : jsToLower u.email = jsToLower (cleanEmailOf email)) :
    signup db hashFn newId email password name =
      (SignupResult.conflict (str "Email already registered"), db) := by
  have hcond : ¬(cleanEmailOf email = [] ∨ strOr password = none ∨
      sanitizeString name 80 = []) := by
    rintro (h | h | h)
    · exact hreq.1 h
    · exact hreq.2.1 h
    · exact hreq.2.2 h
  have hue : u.email = cleanEmailOf email := by
    rw [hlow u hu, hmatch, cleanEmailOf, jsToLower_jsToLower]
  cases hfind : db.find? (fun v => v.email == cleanEmailOf email) with
  | none =>
    exfalso
    have := List.find?_eq_none.mp hfind u hu
    simp only [beq_iff_eq] at this
    exact this hue
  | some v =>
    simp only [signup, if_neg hcond, hfind]

/-- Instantiation of `claim_C8`: a differently-cased, padded duplicate email. -/
theorem claim_C8_witness :
    signup [c8User] hashId (str "u2") (some (str " BOB@x.com ")) (some (str "pw"))
        (some (str "Bob")) =
      (SignupResult.conflict (str "Email already registered"), [c8User]) :=
  claim_C8 [c8User] hashId (str "u2") (some (str " BOB@x.com ")) (some (str "pw"))
    (some (str "Bob")) ⟨by decide, by decide, by decide⟩ (by decide)
    c8User (by decide) (by decide)

/-- C10: an authenticated product deletion succeeds only when the product
exists and its sellerId equals the caller's id; when the id matches no
product, or the product is ownerless (null sellerId), or it belongs to
another user, the response is the 403 "Not allowed" outcome (the handler
has no 404 path) and the Product table is unchanged — in particular no
caller can delete an ownerless product. -/
theorem claim_C10 (db : List Product) (userId pid : Str) :
    (db.find? (fun p => p.id == pid) = none →
        deleteProduct db userId pid = (DelResult.notAllowed, db)) ∧
    (∀ p, db.find? (fun p => p.id == pid) = some p → p.sellerId ≠ some userId →
        deleteProduct db userId pid = (DelResult.notAllowed, db)) ∧
    (∀ p, db.find? (fun p => p.id == pid) = some p → p.sellerId = none →
        deleteProduct db userId pid = (DelResult.notAllowed, db)) ∧
    (∀ p, db.find? (fun p => p.id == pid) = some p → p.sellerId = some userId →
        deleteProduct db userId pid =
          (DelResult.deleted, db.filter (fun q => !(q.id == pid)))) := by
  refine ⟨?_, ?_, ?_, ?_⟩
  · intro h
    simp only [deleteProduct, h]
  · intro p hf hs
    have hb : (p.sellerId == some userId) = false := by
      simp only [beq_eq_false_iff_ne, ne_eq]
      exact hs
    simp only [deleteProduct, hf, hb]
    simp
  · intro p hf hs
    have hb : (p.sellerId == some userId) = false := by
      simp only [beq_eq_false_iff_ne, ne_eq, hs]
      simp
    simp only [deleteProduct, hf, hb]
    simp
  · intro p hf hs
    have hb : (p.sellerId == some userId) = true := by
      simp only [beq_iff_eq]
      exact hs
    simp only [deleteProduct, hf, hb]
    simp

namespace UniThrift

/-- Product table for the `claim_C10` witness: one ownerless product. -/
def c10db : List Product := [{ id := str "p1", price := 10, sellerId := none }]

end UniThrift

/-- Instantiation of `claim_C10`: an ownerless product cannot be deleted. -/
theorem claim_C10_witness :
    deleteProduct c10db (str "u9") (str "p1") = (DelResult.notAllowed, c10db) :=
  (claim_C10 c10db (str "u9") (str "p1")).2.2.1
    { id := str "p1", price := 10, sellerId := none } (by decide) (by decide)

namespace UniThrift

/-- Within one window (every request at most `windowMs` after the bucket's
start), a run from a bucket with count `c` admits the i-th request exactly
when `c + i + 1` does not exceed the maximum; the count keeps incrementing
on rejected requests. -/
theorem rlRunFrom_window (w m : ℕ) (t1 : ℤ) (c : ℕ) (ts : List ℤ)
    (h : ∀ t ∈ ts, t - t1 ≤ (w : ℤ)) :
    rlRunFrom w m (some ⟨c, t1⟩) ts =
      (List.range ts.length).map (fun i =>
        if c + i + 1 ≤ m then RLDecision.allow else RLDecision.tooMany) := by
  induction ts generalizing c with
  | nil => rfl
  | cons t ts ih =>
    have hle : ¬(t - t1 > (w : ℤ)) := not_lt.mpr (h t (List.mem_cons_self t ts))
    have htail : ∀ t' ∈ ts, t' - t1 ≤ (w : ℤ) :=
      fun t' ht' => h t' (List.mem_cons_of_mem _ ht')
    rw [List.length_cons, List.range_succ_eq_map, List.map_cons, List.map_map]
    by_cases hc : c + 1 > m
    · simp only [rlRunFrom, rlStep, if_neg hle, if_pos hc]
      congr 1
      · rw [if_neg (by omega)]
      · rw [ih (c + 1) htail]
        exact List.map_congr_left (fun i _ => by
          have : c + 1 + i + 1 = c + (i + 1) + 1 := by omega
          rw [Function.comp_apply, this])
    · simp only [rlRunFrom, rlStep, if_neg hle, if_neg hc]
      congr 1
      · rw [if_pos (by omega)]
      · rw [ih (c + 1) htail]
        exact List.map_congr_left (fun i _ => by
          have : c + 1 + i + 1 = c + (i + 1) + 1 := by omega
          rw [Function.comp_apply, this])

end UniThrift

/-- C7: with the checkout limiter configuration (60-second window, maximum
10), a run from an empty bucket whose requests all fall within one window
of the first admits exactly the first 10 requests and answers 429 to every
later one; a request arriving more than the window after the bucket's
start resets the bucket to count 1 and is admitted; in particular the 11th
of 11 simultaneous requests is rejected. -/
theorem claim_C7 :
    (∀ (t1 : ℤ) (rest : List ℤ), (∀ t ∈ rest, t - t1 ≤ (checkoutWindowMs : ℤ)) →
      rlRun checkoutWindowMs checkoutMaxRequests (t1 :: rest) =
        (List.range (rest.length + 1)).map (fun i =>
          if i + 1 ≤ checkoutMaxRequests then RLDecision.allow
          else RLDecision.tooMany)) ∧
    (∀ (bu : Bucket) (now : ℤ), now - bu.start > (checkoutWindowMs : ℤ) →
      rlStep checkoutWindowMs checkoutMaxRequests (some bu) now =
        (RLDecision.allow, ⟨1, now⟩)) ∧
    rlRun checkoutWindowMs checkoutMaxRequests (List.replicate 11 0) =
      List.replicate 10 RLDecision.allow ++ [RLDecision.tooMany] := by
  refine ⟨?_, ?_, by decide⟩
  · intro t1 rest h
    rw [rlRun, rlRunFrom]
    simp only [rlStep]
    rw [rlRunFrom_window checkoutWindowMs checkoutMaxRequests t1 1 rest h]
    rw [List.range_succ_eq_map, List.map_cons, List.map_map]
    congr 1
    exact List.map_congr_left (fun i _ => by
      have h2 : 1 + i + 1 = i + 1 + 1 := by omega
      rw [Function.comp_apply, h2])
  · intro bu now h
    simp only [rlStep, if_pos h]

/-- Instantiation of `claim_C7` at eleven simultaneous requests: the run
admits ten and rejects the eleventh. -/
theorem claim_C7_witness :
    (∀ t ∈ List.replicate 10 (0 : ℤ), t - 0 ≤ (checkoutWindowMs : ℤ)) ∧
    rlRun checkoutWindowMs checkoutMaxRequests (0 :: List.replicate 10 0) =
      (List.range (10 + 1)).map (fun i =>
        if i + 1 ≤ checkoutMaxRequests then RLDecision.allow
        else RLDecision.tooMany) :=
  ⟨by decide, claim_C7.1 0 (List.replicate 10 0) (by decide)⟩

namespace UniThrift

/-- A running reduce `sum + f o` over a list is the initial value plus the
sum of the images. -/
theorem foldl_add_int {α : Type} (f : α → ℤ) (l : List α) (a : ℤ) :
    l.foldl (fun s o => s + f o) a = a + (l.map f).sum := by
  induction l generalizing a with
  | nil => simp
  | cons x xs ih =>
    simp only [List.foldl_cons, List.map_cons, List.sum_cons, ih, add_assoc]

theorem totalSales_eq_sum (orders : List AOrder) :
    totalSales orders = (orders.map AOrder.total).sum := by
  rw [totalSales, foldl_add_int]
  simp

theorem totalDiscount_eq_sum (orders : List AOrder) :
    totalDiscount orders = (orders.map AOrder.discount).sum := by
  rw [totalDiscount, foldl_add_int]
  simp

theorem upsertCampus_sales_sum (m : List CampusGroup) (c : Str) (t : ℤ) :
    ((upsertCampus m c t).map CampusGroup.sales).sum =
      (m.map CampusGroup.sales).sum + t := by
  induction m with
  | nil => simp [upsertCampus]
  | cons g rest ih =>
    by_cases h : g.campus = c
    · simp only [upsertCampus, if_pos h, List.map_cons, List.sum_cons]
      ring
    · simp only [upsertCampus, if_neg h, List.map_cons, List.sum_cons, ih]
      ring

theorem upsertCampus_orders_sum (m : List CampusGroup) (c : Str) (t : ℤ) :
    ((upsertCampus m c t).map CampusGroup.orders).sum =
      (m.map CampusGroup.orders).sum + 1 := by
  induction m with
  | nil => simp [upsertCampus]
  | cons g rest ih =>
    by_cases h : g.campus = c
    · simp only [upsertCampus, if_pos h, List.map_cons, List.sum_cons]
      omega
    · simp only [upsertCampus, if_neg h, List.map_cons, List.sum_cons, ih]
      omega

theorem byCampus_sales_fold (orders : List AOrder) (m : List CampusGroup) :
    ((orders.foldl (fun m o => upsertCampus m (campusKey o) o.total) m).map
        CampusGroup.sales).sum =
      (m.map CampusGroup.sales).sum + (orders.map AOrder.total).sum := by
  induction orders generalizing m with
  | nil => simp
  | cons o os ih =>
    simp only [List.foldl_cons, List.map_cons, List.sum_cons]
    rw [ih, upsertCampus_sales_sum]
    ring

theorem byCampus_orders_fold (orders : List AOrder) (m : List CampusGroup) :
    ((orders.foldl (fun m o => upsertCampus m (campusKey o) o.total) m).map
        CampusGroup.orders).sum =
      (m.map CampusGroup.orders).sum + orders.length := by
  induction orders generalizing m with
  | nil => simp
  | cons o os ih =>
    simp only [List.foldl_cons, List.length_cons]
    rw [ih, upsertCampus_orders_sum]
    omega

theorem upsertDay_sales_sum (m : List DayGroup) (k : ℕ) (t : ℤ) :
    ((upsertDay m k t).map DayGroup.sales).sum =
      (m.map DayGroup.sales).sum + t := by
  induction m with
  | nil => simp [upsertDay]
  | cons g rest ih =>
    by_cases h : g.date = k
    · simp only [upsertDay, if_pos h, List.map_cons, List.sum_cons]
      ring
    · simp only [upsertDay, if_neg h, List.map_cons, List.sum_cons, ih]
      ring

theorem upsertDay_orders_sum (m : List DayGroup) (k : ℕ) (t : ℤ) :
    ((upsertDay m k t).map DayGroup.orders).sum =
      (m.map DayGroup.orders).sum + 1 := by
  induction m with
  | nil => simp [upsertDay]
  | cons g rest ih =>
    by_cases h : g.date = k
    · simp only [upsertDay, if_pos h, List.map_cons, List.sum_cons]
      omega
    · simp only [upsertDay, if_neg h, List.map_cons, List.sum_cons, ih]
      omega

theorem dailyGroups_sales_fold (orders : List AOrder) (m : List DayGroup) :
    ((orders.foldl (fun m o => upsertDay m (dayKey o) o.total) m).map
        DayGroup.sales).sum =
      (m.map DayGroup.sales).sum + (orders.map AOrder.total).sum := by
  induction orders generalizing m with
  | nil => simp
  | cons o os ih =>
    simp only [List.foldl_cons, List.map_cons, List.sum_cons]
    rw [ih, upsertDay_sales_sum]
    ring

theorem dailyGroups_orders_fold (orders : List AOrder) (m : List DayGroup) :
    ((orders.foldl (fun m o => upsertDay m (dayKey o) o.total) m).map
        DayGroup.orders).sum =
      (m.map DayGroup.orders).sum + orders.length := by
  induction orders generalizing m with
  | nil => simp
  | cons o os ih =>
    simp only [List.foldl_cons, List.length_cons]
    rw [ih, upsertDay_orders_sum]
    omega

theorem upsertCoupon_uses_sum (m : List CouponGroup) (c : Str) (d : ℤ) :
    ((upsertCoupon m c d).map CouponGroup.uses).sum =
      (m.map CouponGroup.uses).sum + 1 := by
  induction m with
  | nil => simp [upsertCoupon]
  | cons g rest ih =>
    by_cases h : g.code = c
    · simp only [upsertCoupon, if_pos h, List.map_cons, List.sum_cons]
      omega
    · simp only [upsertCoupon, if_neg h, List.map_cons, List.sum_cons, ih]
      omega

theorem byCoupon_uses_fold (orders : List AOrder) (m : List CouponGroup) :
    ((orders.foldl (fun m o =>
        match strOr o.couponCode with
        | none => m
        | some c => upsertCoupon m c o.discount) m).map CouponGroup.uses).sum =
      (m.map CouponGroup.uses).sum +
        (orders.filter (fun o => (strOr o.couponCode).isSome)).length := by
  induction orders generalizing m with
  | nil => simp
  | cons o os ih =>
    simp only [List.foldl_cons]
    cases hc : strOr o.couponCode with
    | none =>
      rw [ih]
      simp [List.filter_cons, hc]
    | some c =>
      rw [ih, upsertCoupon_uses_sum]
      simp only [List.filter_cons, hc, Option.isSome_some, if_true, List.length_cons]
      omega

theorem upsertDay_dates_mem (m : List DayGroup) (k : ℕ) (t : ℤ)
    (h : k ∈ m.map DayGroup.date) :
    (upsertDay m k t).map DayGroup.date = m.map DayGroup.date := by
  induction m with
  | nil => simp at h
  | cons g rest ih =>
    by_cases hg : g.date = k
    · simp [upsertDay, hg]
    · have h' : k ∈ rest.map DayGroup.date := by
        simp only [List.map_cons, List.mem_cons] at h
        rcases h with h | h
        · exact absurd h.symm hg
        · exact h
      simp [upsertDay, hg, ih h']

theorem upsertDay_dates_new (m : List DayGroup) (k : ℕ) (t : ℤ)
    (h : k ∉ m.map DayGroup.date) :
    (upsertDay m k t).map DayGroup.date = m.map DayGroup.date ++ [k] := by
  induction m with
  | nil => simp [upsertDay]
  | cons g rest ih =>
    have hg : ¬g.date = k := by
      intro he
      exact h (by simp [he])
    have h' : k ∉ rest.map DayGroup.date := by
      intro hk
      exact h (by simp [hk])
    simp [upsertDay, hg, ih h']

theorem dailyGroups_fold_nodup (orders : List AOrder) (m : List DayGroup)
    (hm : (m.map DayGroup.date).Nodup) :
    ((orders.foldl (fun m o => upsertDay m (dayKey o) o.total) m).map
        DayGroup.date).Nodup := by
  induction orders generalizing m with
  | nil => exact hm
  | cons o os ih =>
    simp only [List.foldl_cons]
    apply ih
    by_cases h : dayKey o ∈ m.map DayGroup.date
    · rwa [upsertDay_dates_mem _ _ _ h]
    · rw [upsertDay_dates_new _ _ _ h]
      simp [List.nodup_append, hm, h]

/-- The sorted daily series is a permutation of the day groups. -/
theorem daily_perm (orders : List AOrder) :
    (daily orders).Perm (dailyGroups orders) :=
  List.perm_insertionSort dayLE (dailyGroups orders)

/-- Order with an empty-string coupon code, for the `claim_C9`
counterexample. -/
def c9Order : AOrder :=
  { total := 5, discount := 2, campus := none, couponCode := some [],
    createdAt := 0 }

end UniThrift

/-- C9 fails as stated: the per-coupon breakdown skips every falsy coupon
code, so an order whose couponCode is the non-null empty string is counted
by the claim ("non-null couponCode") but not by the code. -/
theorem claim_C9_counterexample :
    c9Order.couponCode ≠ none ∧
    ((byCoupon [c9Order]).map CouponGroup.uses).sum = 0 ∧
    (List.filter (fun o => o.couponCode.isSome) [c9Order]).length = 1 := by
  decide

/-- C9 amended: for every list of orders the analytics summary reconciles:
total sales and discount are the sums over the orders, the average order
value is the rounded quotient (0 with no orders), the per-campus breakdown
partitions the orders (sales and counts sum to the totals, missing campus
keyed "Unknown"), the daily series partitions the orders by UTC day with
distinct keys in ascending order and sums matching the totals, and the
per-coupon breakdown counts exactly the orders with a non-null, non-empty
couponCode (a falsy empty-string code is skipped like null). -/
theorem claim_C9 (orders : List AOrder) :
    totalSales orders = (orders.map AOrder.total).sum ∧
    totalDiscount orders = (orders.map AOrder.discount).sum ∧
    avgOrder orders = (if orders.length > 0 then
      jsRound ((totalSales orders : ℚ) / (orders.length : ℚ)) else 0) ∧
    ((byCampus orders).map CampusGroup.sales).sum = totalSales orders ∧
    ((byCampus orders).map CampusGroup.orders).sum = orders.length ∧
    ((daily orders).map DayGroup.sales).sum = totalSales orders ∧
    ((daily orders).map DayGroup.orders).sum = orders.length ∧
    List.Sorted dayLE (daily orders) ∧
    ((daily orders).map DayGroup.date).Nodup ∧
    ((byCoupon orders).map CouponGroup.uses).sum =
      (orders.filter (fun o => (strOr o.couponCode).isSome)).length := by
  refine ⟨totalSales_eq_sum orders, totalDiscount_eq_sum orders, rfl, ?_, ?_,
    ?_, ?_, List.sorted_insertionSort dayLE (dailyGroups orders), ?_, ?_⟩
  · rw [byCampus, byCampus_sales_fold, totalSales_eq_sum]
    simp
  · rw [byCampus, byCampus_orders_fold]
    simp
  · rw [((daily_perm orders).map DayGroup.sales).sum_eq, dailyGroups,
      dailyGroups_sales_fold, totalSales_eq_sum]
    simp
  · rw [((daily_perm orders).map DayGroup.orders).sum_eq, dailyGroups,
      dailyGroups_orders_fold]
    simp
  · rw [((daily_perm orders).map DayGroup.date).nodup_iff]
    exact dailyGroups_fold_nodup orders [] (by simp)
  · rw [byCoupon, byCoupon_uses_fold]
    simp
